import Mathlib

/-!
Verification of the policy orchestration core of the restriction-app
repository (src/policy/browserPolicy.js, src/policy/drivePolicy.js,
src/policy/policyManager.js, src/utils/privilegeChecker.js).

The JavaScript code is shallowly embedded: registry state becomes an
explicit `RegState` value threaded through the operations, each
PowerShell invocation against the registry is recorded in a trace of
`BackendCall`s, and the outcome of each external process (privilege
check, per-browser registry write, registry read) is supplied as an
oracle argument (a `Bool` or `Option String` of the thrown message).
Every operation returns the structured result object it builds in the
source, the updated registry state, and the trace of backend calls it
attempted.
-/

namespace RestrictionApp

/-- The three fixed browser targets of `BrowserPolicy.browserPaths`
(chrome, edge, firefox), iterated in object-literal order. -/
inductive Browser where
  | chrome
  | edge
  | firefox
deriving Repr, DecidableEq

/-- Iteration order of `Object.entries(this.browserPaths)`. -/
def browserList : List Browser := [Browser.chrome, Browser.edge, Browser.firefox]

/-- Registry keys of one browser policy root: whether the
`URLBlocklist` container exists (it is only ever created together with
its single rule value `'1' = '*'`), and the `URLAllowlist` container
with its numerically named values, modelled as the dense list of values
at names 1, 2, 3, ... (`none` = container absent). -/
structure BrowserKeys where
  blocklist : Bool
  allowlist : Option (List String)
deriving Repr, DecidableEq

/-- The registry surface the code touches: one `BrowserKeys` per
browser, plus the `StorageDevicePolicies\WriteProtect` DWORD of the
drive policy (`none` = value or key absent). -/
structure RegState where
  chrome : BrowserKeys
  edge : BrowserKeys
  firefox : BrowserKeys
  writeProtect : Option Int
deriving Repr, DecidableEq

def RegState.getB (st : RegState) : Browser → BrowserKeys
  | Browser.chrome => st.chrome
  | Browser.edge => st.edge
  | Browser.firefox => st.firefox

def RegState.setB (st : RegState) : Browser → BrowserKeys → RegState
  | Browser.chrome, k => { st with chrome := k }
  | Browser.edge, k => { st with edge := k }
  | Browser.firefox, k => { st with firefox := k }

/-- A clean initial registry: no policy keys configured. -/
def initState : RegState :=
  { chrome := ⟨false, none⟩, edge := ⟨false, none⟩, firefox := ⟨false, none⟩,
    writeProtect := none }

/-- One attempted external backend (registry) invocation. The
privilege check's `net session` call is not a backend call. -/
inductive BackendCall where
  | browserWrite (b : Browser)
  | allowlistRead
  | driveWrite
  | driveRead
deriving Repr, DecidableEq

/-- The `error` object of a failed result:
`{code, message, details, recoverable, ...}`. -/
structure PolicyError where
  code : String
  message : String
  details : String
  recoverable : Bool
  invalidDomains : Option (List String) := none
  originalError : Option String := none
deriving Repr, DecidableEq

/-- Per-target entry pushed into the `results` array of the browser
fan-out operations: `{browser, success, error?, domainCount?}`. -/
structure TargetResult where
  browser : Browser
  success : Bool
  error : Option String := none
  domainCount : Option Nat := none
deriving Repr, DecidableEq

/-- The universal result envelope returned by the controllers and the
orchestrator. JavaScript objects are heterogeneous, so every payload
field that appears in some operation's return object is optional here;
an absent field is `none`. -/
structure PolicyResult where
  success : Bool
  error : Option PolicyError := none
  message : Option String := none
  status : Option String := none
  results : Option (List TargetResult) := none
  domains : Option (List String) := none
  count : Option Nat := none
  domainCount : Option Nat := none
  isBlocked : Option Bool := none
deriving Repr, DecidableEq

/-- Result type of `PolicyManager.resetAllPolicies`: the envelope plus
the `results` object `{drive, browser, whitelist}` of the three
sub-operation results. -/
structure ResetResult where
  success : Bool
  error : Option PolicyError := none
  message : Option String := none
  results : Option (PolicyResult × PolicyResult × PolicyResult) := none
deriving Repr, DecidableEq

/-- Aggregate status object built by
`PolicyManager.getCurrentPolicyStatus` (the `policies` sub-objects are
flattened into fields). Its `catch` branch is unreachable in this
model, so `error` is kept only to state the result-envelope invariant. -/
structure PolicyStatus where
  success : Bool
  error : Option PolicyError := none
  driveWriteBlocked : Bool
  driveStatus : String
  driveError : Option PolicyError
  whitelistActive : Bool
  whitelistedDomains : List String
  domainCount : Nat
deriving Repr, DecidableEq

/-! ### String primitives

The JavaScript string operations used by the code
(`replace(/^https?:\/\//, '')`, `replace(/\/.*$/, '')`, `trim`,
`split('\n')`, the domain regex) are implemented over `List Char`. -/

/-- Splitting a character list at every occurrence of `c`
(JavaScript `String.prototype.split` with a single-character
separator). Always returns at least one (possibly empty) part. -/
def splitOnChar (c : Char) : List Char → List (List Char)
  | [] => [[]]
  | x :: xs =>
    match splitOnChar c xs with
    | [] => [[]]
    | g :: gs => if x = c then [] :: g :: gs else (x :: g) :: gs

/-- JavaScript `String.prototype.trim`: strip leading and trailing
whitespace. -/
def trimChars (l : List Char) : List Char :=
  ((l.dropWhile Char.isWhitespace).reverse.dropWhile Char.isWhitespace).reverse

def jsTrim (s : String) : String := String.mk (trimChars s.data)

/-- `replace(/^https?:\/\//, '')`: drop one leading `http://` or
`https://` scheme. -/
def stripScheme (l : List Char) : List Char :=
  if l.take 8 = "https://".data then l.drop 8
  else if l.take 7 = "http://".data then l.drop 7
  else l

/-- `replace(/\/.*$/, '')`: remove from the first `/` that is followed
only by non-newline characters up to the end of the string (`.` does
not match a newline and the regex is anchored with `$`), through the
end.  Equivalently: in the segment after the last newline, cut at the
first `/`. -/
def stripPath (l : List Char) : List Char :=
  if ((l.reverse.takeWhile (fun c => c ≠ '\n')).reverse).any (fun c => c = '/') then
    l.take (l.length - ((l.reverse.takeWhile (fun c => c ≠ '\n')).reverse).length)
      ++ ((l.reverse.takeWhile (fun c => c ≠ '\n')).reverse).takeWhile (fun c => c ≠ '/')
  else l

/-- The cleaned domain tested against the regex in
`BrowserPolicy.validateDomain`. -/
def cleanDomain (d : String) : List Char :=
  stripPath (stripScheme d.data)

def isAlnum (c : Char) : Bool := c.isAlpha || c.isDigit

def isLabelChar (c : Char) : Bool := isAlnum c || c = '-'

/-- Trailing part of a regex label after its first character: all
characters alphanumeric or hyphen, the last one alphanumeric. -/
def labelCore : List Char → Bool
  | [] => false
  | [c] => isAlnum c
  | c :: rest => isLabelChar c && labelCore rest

/-- One label of `this.domainRegex`:
`[a-zA-Z0-9](?:[a-zA-Z0-9-]{0,61}[a-zA-Z0-9])?` — length 1 to 63,
alphanumeric first and last character, alphanumeric or hyphen inside. -/
def isValidLabel : List Char → Bool
  | [] => false
  | [c] => isAlnum c
  | c :: rest => isAlnum c && labelCore rest && (c :: rest).length ≤ 63

/-- Whether `this.domainRegex =
^(?:L\.)*L$` accepts the string: every dot-separated part is a label. -/
def domainRegexMatches (l : List Char) : Bool :=
  (splitOnChar '.' l).all isValidLabel

/-- `BrowserPolicy.validateDomain`: reject empty/non-string input
(`!domain`), strip scheme and path, test the regex. -/
def validateDomain (domain : String) : Bool :=
  if domain = "" then false
  else domainRegexMatches (cleanDomain domain)

/-- Modelled from the spec (claim C9's grammar, for comparison with
`validateDomain`): same scheme/path stripping, labels of 1–63
alphanumeric/hyphen characters with no leading or trailing hyphen, and
the final label alphabetic-only with length at least 2. -/
def specValidateDomain (domain : String) : Bool :=
  if domain = "" then false
  else
    let ls := splitOnChar '.' (cleanDomain domain)
    ls.all isValidLabel &&
      (match ls.getLast? with
       | some t => decide (t.length ≥ 2) && t.all Char.isAlpha
       | none => false)

/-! ### Error classification and the privilege gate -/

/-- JavaScript `toLowerCase`, character by character (ASCII case map). -/
def strToLower (s : String) : String := String.mk (s.data.map Char.toLower)

/-- Substring test used for `errorLower.includes(...)`. -/
def hasSub : List Char → List Char → Bool
  | [], needle => needle.isEmpty
  | c :: t, needle => ((c :: t).take needle.length == needle) || hasSub t needle

def strContains (hay needle : String) : Bool := hasSub hay.data needle.data

/-- Shared shape of `DrivePolicy._handleRegistryError` and
`BrowserPolicy._handlePolicyError`: classify a thrown message by
case-insensitive substring into one of four structured errors. The two
methods differ only in the INSUFFICIENT_PRIVILEGES details tail
(`privTail`). -/
def classifyRegistryError (errorMessage operation privTail : String) : PolicyResult :=
  let errorLower := strToLower errorMessage
  if strContains errorLower "access is denied" || strContains errorLower "access denied" then
    { success := false,
      error := some { code := "REGISTRY_ACCESS_DENIED", message := "Registry access denied",
                      details := "Cannot " ++ operation ++ ": Registry access was denied. Administrator privileges may be insufficient or registry key is protected.",
                      recoverable := true, originalError := some errorMessage } }
  else if strContains errorLower "privilege" || strContains errorLower "administrator" then
    { success := false,
      error := some { code := "INSUFFICIENT_PRIVILEGES", message := "Insufficient privileges",
                      details := "Cannot " ++ operation ++ ": " ++ privTail,
                      recoverable := true, originalError := some errorMessage } }
  else if strContains errorLower "registry" || strContains errorLower "itemnotfound" then
    { success := false,
      error := some { code := "REGISTRY_ERROR", message := "Registry operation failed",
                      details := "Cannot " ++ operation ++ ": Registry operation encountered an error.",
                      recoverable := true, originalError := some errorMessage } }
  else
    { success := false,
      error := some { code := "OPERATION_FAILED", message := "Operation failed",
                      details := "Cannot " ++ operation ++ ": An unexpected error occurred.",
                      recoverable := false, originalError := some errorMessage } }

/-- `DrivePolicy._handleRegistryError`. -/
def handleRegistryError (errorMessage operation : String) : PolicyResult :=
  classifyRegistryError errorMessage operation
    "Administrator privileges are required to modify registry settings."

/-- `BrowserPolicy._handlePolicyError`. -/
def handlePolicyError (errorMessage operation : String) : PolicyResult :=
  classifyRegistryError errorMessage operation
    "Administrator privileges are required to modify browser policies."

/-- `PrivilegeChecker.verifyPrivilegesForOperation`; `admin` is the
outcome of `checkAdminPrivileges` (whether `net session` succeeded). -/
def verifyPrivilegesForOperation (operationName : String) (admin : Bool) : PolicyResult :=
  if admin then
    { success := true, message := some "Administrator privileges verified" }
  else
    { success := false,
      error := some { code := "INSUFFICIENT_PRIVILEGES",
                      message := "Administrator privileges required",
                      details := "Cannot execute " ++ operationName ++ " without administrator privileges",
                      recoverable := true } }

/-! ### DrivePolicy -/

/-- Every operation returns (result object, registry state after,
trace of attempted backend calls). -/
abbrev OpOut := PolicyResult × RegState × List BackendCall

/-- `DrivePolicy.blockWriteAccess`. `execFail = some m` means the
PowerShell invocation threw with message `m` (no mutation applied);
`none` means it succeeded and set `WriteProtect = 1`. -/
def blockWriteAccess (admin : Bool) (execFail : Option String) (st : RegState) : OpOut :=
  let privilegeCheck := verifyPrivilegesForOperation "Block External Drive Write Access" admin
  if !privilegeCheck.success then (privilegeCheck, st, [])
  else
    match execFail with
    | some m => (handleRegistryError m "block write access", st, [BackendCall.driveWrite])
    | none =>
      ({ success := true, message := some "External drive write access has been blocked",
         status := some "blocked" },
       { st with writeProtect := some 1 }, [BackendCall.driveWrite])

/-- `DrivePolicy.allowWriteAccess`: sets `WriteProtect = 0`. -/
def allowWriteAccess (admin : Bool) (execFail : Option String) (st : RegState) : OpOut :=
  let privilegeCheck := verifyPrivilegesForOperation "Allow External Drive Write Access" admin
  if !privilegeCheck.success then (privilegeCheck, st, [])
  else
    match execFail with
    | some m => (handleRegistryError m "allow write access", st, [BackendCall.driveWrite])
    | none =>
      ({ success := true, message := some "External drive write access has been allowed",
         status := some "allowed" },
       { st with writeProtect := some 0 }, [BackendCall.driveWrite])

/-- `DrivePolicy.getWriteAccessStatus`: the PowerShell script prints
the `WriteProtect` value, or `-1` from its own catch block when the
key/value is missing or unreadable (`readErr`). Read-only: no
privilege check, no state change. -/
def getWriteAccessStatus (readErr : Bool) (st : RegState) : PolicyResult × List BackendCall :=
  let value : Int :=
    if readErr then -1
    else match st.writeProtect with
         | some v => v
         | none => -1
  let statusStr := if value = 1 then "blocked" else "allowed"
  let isBlocked := value = 1
  ({ success := true, status := some statusStr, isBlocked := some isBlocked,
     message := some ("External drive write access is currently " ++ statusStr) },
   [BackendCall.driveRead])

/-! ### BrowserPolicy -/

/-- The fan-out loop `for (const [browser, path] of
Object.entries(this.browserPaths))` shared by the four aggregate
operations. `failMsg b = some m` means the registry command(s) for
target `b` threw with message `m` (push a failure entry, no mutation
for that target); otherwise apply `upd` to that target's keys.
`okExtra` is the `domainCount` field pushed on success (only
`enableWhitelist` sets it) and `callsOk` the number of PowerShell
invocations a successful target performs; a failing target still
attempts a call. -/
def runTargets (failMsg : Browser → Option String) (upd : BrowserKeys → BrowserKeys)
    (okExtra : Option Nat) (callsOk : Nat) :
    List Browser → RegState → List TargetResult × RegState × List BackendCall
  | [], st => ([], st, [])
  | b :: rest, st =>
    match failMsg b with
    | some m =>
      let r := runTargets failMsg upd okExtra callsOk rest st
      (⟨b, false, some m, none⟩ :: r.1, r.2.1, BackendCall.browserWrite b :: r.2.2)
    | none =>
      let st1 := st.setB b (upd (st.getB b))
      let r := runTargets failMsg upd okExtra callsOk rest st1
      (⟨b, true, none, okExtra⟩ :: r.1, r.2.1,
       List.replicate callsOk (BackendCall.browserWrite b) ++ r.2.2)

/-- `BrowserPolicy.blockAllWebsites`: per browser, create the policy
path and `URLBlocklist` container and set rule `'1' = '*'`. -/
def blockAllWebsites (admin : Bool) (failMsg : Browser → Option String) (st : RegState) : OpOut :=
  let privilegeCheck := verifyPrivilegesForOperation "Block All Websites" admin
  if !privilegeCheck.success then (privilegeCheck, st, [])
  else
    let r := runTargets failMsg (fun k => { k with blocklist := true }) none 1 browserList st
    let results := r.1
    let allSuccess := results.all (fun t => t.success)
    let successCount := (results.filter (fun t => t.success)).length
    ({ success := allSuccess,
       message := some (if allSuccess then "All websites have been blocked across all browsers"
         else "Websites blocked for " ++ toString successCount ++ " of "
           ++ toString results.length ++ " browsers"),
       results := some results, status := some "blocked" }, r.2.1, r.2.2)

/-- `BrowserPolicy.unblockAllWebsites`: per browser, remove the
`URLBlocklist` container if present. -/
def unblockAllWebsites (admin : Bool) (failMsg : Browser → Option String) (st : RegState) : OpOut :=
  let privilegeCheck := verifyPrivilegesForOperation "Unblock All Websites" admin
  if !privilegeCheck.success then (privilegeCheck, st, [])
  else
    let r := runTargets failMsg (fun k => { k with blocklist := false }) none 1 browserList st
    let results := r.1
    let allSuccess := results.all (fun t => t.success)
    let successCount := (results.filter (fun t => t.success)).length
    ({ success := allSuccess,
       message := some (if allSuccess then "All websites have been unblocked across all browsers"
         else "Websites unblocked for " ++ toString successCount ++ " of "
           ++ toString results.length ++ " browsers"),
       results := some results, status := some "unblocked" }, r.2.1, r.2.2)

/-- Registry effect of `enableWhitelist`'s indexed
`Set-ItemProperty -Name (i+1)` writes on a dense allowlist: positions
1..N are overwritten, stale entries beyond N persist. -/
def applyWrites (ds old : List String) : List String :=
  ds ++ old.drop ds.length

/-- `BrowserPolicy.enableWhitelist`: privilege check, then validate
every domain (fail with INVALID_DOMAIN_FORMAT listing the invalid ones,
zero backend calls), then per browser set the universal blocklist rule,
create the `URLAllowlist` container and write each domain at index
`i+1`. -/
def enableWhitelist (domains : List String) (admin : Bool) (failMsg : Browser → Option String)
    (st : RegState) : OpOut :=
  let privilegeCheck := verifyPrivilegesForOperation "Enable Domain Whitelist" admin
  if !privilegeCheck.success then (privilegeCheck, st, [])
  else
    let invalidDomains := domains.filter (fun d => !validateDomain d)
    if invalidDomains.length > 0 then
      ({ success := false,
         error := some { code := "INVALID_DOMAIN_FORMAT", message := "Invalid domain format",
                         details := "The following domains have invalid format: "
                         ++ String.intercalate ", " invalidDomains,
                         recoverable := true, invalidDomains := some invalidDomains } }, st, [])
    else
      let r := runTargets failMsg
        (fun k => { blocklist := true,
                    allowlist := some (applyWrites domains (k.allowlist.getD [])) })
        (some domains.length) (2 + domains.length) browserList st
      let results := r.1
      let allSuccess := results.all (fun t => t.success)
      let successCount := (results.filter (fun t => t.success)).length
      ({ success := allSuccess,
         message := some (if allSuccess then
             "Domain whitelist enabled with " ++ toString domains.length ++ " domains"
           else "Whitelist enabled for " ++ toString successCount ++ " of "
             ++ toString results.length ++ " browsers"),
         results := some results, status := some "whitelist_enabled",
         domainCount := some domains.length }, r.2.1, r.2.2)

/-- `BrowserPolicy.disableWhitelist`: per browser, remove both the
`URLBlocklist` and `URLAllowlist` containers if present. -/
def disableWhitelist (admin : Bool) (failMsg : Browser → Option String) (st : RegState) : OpOut :=
  let privilegeCheck := verifyPrivilegesForOperation "Disable Domain Whitelist" admin
  if !privilegeCheck.success then (privilegeCheck, st, [])
  else
    let r := runTargets failMsg (fun _ => { blocklist := false, allowlist := none }) none 1
      browserList st
    let results := r.1
    let allSuccess := results.all (fun t => t.success)
    let successCount := (results.filter (fun t => t.success)).length
    ({ success := allSuccess,
       message := some (if allSuccess then "Domain whitelist has been disabled"
         else "Whitelist disabled for " ++ toString successCount ++ " of "
           ++ toString results.length ++ " browsers"),
       results := some results, status := some "whitelist_disabled" }, r.2.1, r.2.2)

/-- The stdout parse in `getDomainList`:
`stdout.trim().split('\n').map(d => d.trim()).filter(d => d.length > 0)`
applied to one printed line per registry value (the leading whole-string
trim only removes all-whitespace edge lines, which the filter drops
anyway, so it is absorbed by the per-line trim and filter). -/
def parseStdoutLines (vals : List String) : List String :=
  (((vals.map (fun v => (splitOnChar '\n' v.data).map String.mk)).flatten).map jsTrim).filter
    (fun s => s ≠ "")

/-- `BrowserPolicy.getDomainList`: read the numeric values of Chrome's
`URLAllowlist` (the designated source of truth). Read-only, no
privilege check; on any read error (`readErr`, the catch branch) or an
absent container, an empty list with `success = true`. -/
def getDomainList (readErr : Bool) (st : RegState) : PolicyResult × List BackendCall :=
  if readErr then
    ({ success := true, domains := some [], count := some 0 }, [BackendCall.allowlistRead])
  else
    let vals := (st.getB Browser.chrome).allowlist.getD []
    let domains := parseStdoutLines vals
    ({ success := true, domains := some domains, count := some domains.length },
     [BackendCall.allowlistRead])

/-- `BrowserPolicy.addDomain`: validate the domain format first, then
privilege check, then read the current list; if already present return
success with status `already_exists` (no write), otherwise re-enable
the whitelist with the appended list. -/
def addDomain (domain : String) (admin readErr : Bool) (failMsg : Browser → Option String)
    (st : RegState) : OpOut :=
  if !validateDomain domain then
    ({ success := false,
       error := some { code := "INVALID_DOMAIN_FORMAT", message := "Invalid domain format",
                       details := "The domain \"" ++ domain
                       ++ "\" has an invalid format. Please use a valid domain name (e.g., example.com)",
                       recoverable := true } }, st, [])
  else
    let privilegeCheck := verifyPrivilegesForOperation "Add Domain to Whitelist" admin
    if !privilegeCheck.success then (privilegeCheck, st, [])
    else
      let cur := getDomainList readErr st
      if !cur.1.success then (cur.1, st, cur.2)
      else
        let ds := cur.1.domains.getD []
        if domain ∈ ds then
          ({ success := true,
             message := some ("Domain \"" ++ domain ++ "\" is already in the whitelist"),
             status := some "already_exists" }, st, cur.2)
        else
          let r := enableWhitelist (ds ++ [domain]) admin failMsg st
          (r.1, r.2.1, cur.2 ++ r.2.2)

/-- `BrowserPolicy.removeDomain`: privilege check, read the current
list; if absent return success with status `not_found`; if the filtered
list is empty call `disableWhitelist`, otherwise re-enable the
whitelist with the filtered list. -/
def removeDomain (domain : String) (admin readErr : Bool) (failMsg : Browser → Option String)
    (st : RegState) : OpOut :=
  let privilegeCheck := verifyPrivilegesForOperation "Remove Domain from Whitelist" admin
  if !privilegeCheck.success then (privilegeCheck, st, [])
  else
    let cur := getDomainList readErr st
    if !cur.1.success then (cur.1, st, cur.2)
    else
      let ds := cur.1.domains.getD []
      if domain ∉ ds then
        ({ success := true,
           message := some ("Domain \"" ++ domain ++ "\" is not in the whitelist"),
           status := some "not_found" }, st, cur.2)
      else
        let updatedDomains := ds.filter (fun d => d ≠ domain)
        if updatedDomains.length = 0 then
          let r := disableWhitelist admin failMsg st
          (r.1, r.2.1, cur.2 ++ r.2.2)
        else
          let r := enableWhitelist updatedDomains admin failMsg st
          (r.1, r.2.1, cur.2 ++ r.2.2)

/-! ### PolicyManager -/

/-- `PolicyManager.resetAllPolicies`: privilege check once, then
sequentially `allowWriteAccess`, `unblockAllWebsites`,
`disableWhitelist`; each sub-result recorded, overall success is the
conjunction, partial failure reported as PARTIAL_RESET_FAILURE with the
per-step results attached. -/
def resetAllPolicies (admin : Bool) (driveFail : Option String)
    (failUnblock failDisable : Browser → Option String) (st : RegState) :
    ResetResult × RegState × List BackendCall :=
  let privilegeCheck := verifyPrivilegesForOperation "Reset all policies" admin
  if !privilegeCheck.success then
    ({ success := false, error := privilegeCheck.error }, st, [])
  else
    let d := allowWriteAccess admin driveFail st
    let b := unblockAllWebsites admin failUnblock d.2.1
    let w := disableWhitelist admin failDisable b.2.1
    let allSucceeded := d.1.success && b.1.success && w.1.success
    if allSucceeded then
      ({ success := true, message := some "All policies have been reset to default state",
         results := some (d.1, b.1, w.1) }, w.2.1, d.2.2 ++ b.2.2 ++ w.2.2)
    else
      ({ success := false,
         error := some { code := "PARTIAL_RESET_FAILURE",
                         message := "Some policies could not be reset",
                         details := "One or more policy reset operations failed. Check individual results for details.",
                         recoverable := true },
         results := some (d.1, b.1, w.1) }, w.2.1, d.2.2 ++ b.2.2 ++ w.2.2)

/-- `PolicyManager.getCurrentPolicyStatus`: read-only aggregate of the
drive status and the domain list; never fails (its catch branch is
unreachable since both reads always resolve). No privilege check. -/
def getCurrentPolicyStatus (readErrDrive readErrList : Bool) (st : RegState) :
    PolicyStatus × List BackendCall :=
  let driveStatus := getWriteAccessStatus readErrDrive st
  let domainList := getDomainList readErrList st
  let whitelistActive := domainList.1.success && (domainList.1.count.getD 0) > 0
  ({ success := true,
     driveWriteBlocked := if driveStatus.1.success then driveStatus.1.isBlocked.getD false
       else false,
     driveStatus := if driveStatus.1.success then driveStatus.1.status.getD "unknown"
       else "unknown",
     driveError := if driveStatus.1.success then none else driveStatus.1.error,
     whitelistActive := whitelistActive,
     whitelistedDomains := if domainList.1.success then domainList.1.domains.getD [] else [],
     domainCount := if domainList.1.success then domainList.1.count.getD 0 else 0 },
   driveStatus.2 ++ domainList.2)

/-! ### Definitions used by the statements of the verified properties -/

/-- The per-target entry `blockAllWebsites` pushes for browser `b`
under the failure oracle `failMsg`. -/
def targetEntry (failMsg : Browser → Option String) (b : Browser) : TargetResult :=
  match failMsg b with
  | some m => ⟨b, false, some m, none⟩
  | none => ⟨b, true, none, none⟩

/-- The result object `addDomain` returns when the domain is already
whitelisted. -/
def alreadyExistsResult (d : String) : PolicyResult :=
  { success := true,
    message := some ("Domain \"" ++ d ++ "\" is already in the whitelist"),
    status := some "already_exists" }

/-- A mutating operation blocked by the privilege gate: failed result
with code INSUFFICIENT_PRIVILEGES, the registry untouched, and not a
single backend call attempted. -/
def privGated (o : OpOut) (st : RegState) : Prop :=
  o.1.success = false ∧ o.1.error.map (fun e => e.code) = some "INSUFFICIENT_PRIVILEGES" ∧
    o.2.1 = st ∧ o.2.2 = []

/-- Result-envelope invariant as the code actually maintains it: a
successful result never carries an error; a failed result carries an
error object, or (for the browser fan-out aggregates) a per-target
results list recording at least one failed target. -/
def envelopeOk (r : PolicyResult) : Prop :=
  (r.success = true → r.error = none) ∧
  (r.success = false →
    r.error.isSome = true ∨ (r.results.getD []).any (fun t => !t.success) = true)

/-- Result-envelope invariant for `resetAllPolicies`, which always
attaches an error object on failure. -/
def resetEnvelopeOk (r : ResetResult) : Prop :=
  (r.success = true → r.error = none) ∧ (r.success = false → r.error.isSome = true)

/-- Result-envelope invariant for `getCurrentPolicyStatus`. -/
def statusEnvelopeOk (r : PolicyStatus) : Prop :=
  (r.success = true → r.error = none) ∧ (r.success = false → r.error.isSome = true)

/-- Chrome's stored allowlist values are honest domain entries: each is
a valid domain already in trimmed form. States reached by the
operations themselves from a clean registry satisfy this. -/
def NormalizedAllowlist (st : RegState) : Prop :=
  ∀ v ∈ (st.getB Browser.chrome).allowlist.getD [], validateDomain v = true ∧ jsTrim v = v

/-- Spec-side declarative label grammar of claim C9: 1–63
alphanumeric/hyphen characters, no leading or trailing hyphen. -/
def SpecLabel (p : List Char) : Prop :=
  p ≠ [] ∧ p.length ≤ 63 ∧ (∀ x ∈ p, isLabelChar x = true) ∧
    (∀ x, p.head? = some x → isAlnum x = true) ∧
    (∀ x, p.getLast? = some x → isAlnum x = true)

/-- Joining parts with a single separator character (inverse of
`splitOnChar`), used to state the decomposition of a string into
dot-separated labels. -/
def joinWithChar (c : Char) : List (List Char) → List Char
  | [] => []
  | [p] => p
  | p :: ps => p ++ c :: joinWithChar c ps

/-- A registry state holding a one-domain whitelist, used to witness
the whitelist properties at a concrete input. -/
def oneDomainState : RegState :=
  { chrome := ⟨true, some ["example.com"]⟩, edge := ⟨true, some ["example.com"]⟩,
    firefox := ⟨true, some ["example.com"]⟩, writeProtect := none }

/-! ### Helper lemmas -/

theorem getDomainList_success (readErr : Bool) (st : RegState) :
    (getDomainList readErr st).1.success = true := by
  cases readErr <;> simp [getDomainList]

theorem all_false_any_not {α : Type} (l : List α) (p : α → Bool) (h : l.all p = false) :
    l.any (fun x => !p x) = true := by
  simp only [List.all_eq_false] at h
  simp only [List.any_eq_true]
  obtain ⟨x, hx, hpx⟩ := h
  exact ⟨x, hx, by simp [hpx]⟩

theorem envOk_verify (o : String) (admin : Bool) :
    envelopeOk (verifyPrivilegesForOperation o admin) := by
  cases admin <;> simp [verifyPrivilegesForOperation, envelopeOk]

theorem envOk_classify (m o t : String) : envelopeOk (classifyRegistryError m o t) := by
  simp only [classifyRegistryError]
  split_ifs <;> simp [envelopeOk]

theorem envOk_blockWrite (admin : Bool) (execFail : Option String) (st : RegState) :
    envelopeOk (blockWriteAccess admin execFail st).1 := by
  cases admin
  · simp [blockWriteAccess, verifyPrivilegesForOperation, envelopeOk]
  · cases execFail with
    | none => simp [blockWriteAccess, verifyPrivilegesForOperation, envelopeOk]
    | some m =>
      simpa [blockWriteAccess, verifyPrivilegesForOperation, handleRegistryError]
        using envOk_classify m "block write access"
          "Administrator privileges are required to modify registry settings."

theorem envOk_allowWrite (admin : Bool) (execFail : Option String) (st : RegState) :
    envelopeOk (allowWriteAccess admin execFail st).1 := by
  cases admin
  · simp [allowWriteAccess, verifyPrivilegesForOperation, envelopeOk]
  · cases execFail with
    | none => simp [allowWriteAccess, verifyPrivilegesForOperation, envelopeOk]
    | some m =>
      simpa [allowWriteAccess, verifyPrivilegesForOperation, handleRegistryError]
        using envOk_classify m "allow write access"
          "Administrator privileges are required to modify registry settings."

theorem envOk_blockAll (admin : Bool) (failMsg : Browser → Option String) (st : RegState) :
    envelopeOk (blockAllWebsites admin failMsg st).1 := by
  cases admin
  · simp [blockAllWebsites, verifyPrivilegesForOperation, envelopeOk]
  · simp only [blockAllWebsites, verifyPrivilegesForOperation, if_true, Bool.not_true,
      Bool.false_eq_true, if_false, envelopeOk]
    refine ⟨by simp, fun h => Or.inr ?_⟩
    exact all_false_any_not _ _ (by simpa using h)

theorem envOk_unblockAll (admin : Bool) (failMsg : Browser → Option String) (st : RegState) :
    envelopeOk (unblockAllWebsites admin failMsg st).1 := by
  cases admin
  · simp [unblockAllWebsites, verifyPrivilegesForOperation, envelopeOk]
  · simp only [unblockAllWebsites, verifyPrivilegesForOperation, if_true, Bool.not_true,
      Bool.false_eq_true, if_false, envelopeOk]
    refine ⟨by simp, fun h => Or.inr ?_⟩
    exact all_false_any_not _ _ (by simpa using h)

theorem envOk_disableWhitelist (admin : Bool) (failMsg : Browser → Option String)
    (st : RegState) : envelopeOk (disableWhitelist admin failMsg st).1 := by
  cases admin
  · simp [disableWhitelist, verifyPrivilegesForOperation, envelopeOk]
  · simp only [disableWhitelist, verifyPrivilegesForOperation, if_true, Bool.not_true,
      Bool.false_eq_true, if_false, envelopeOk]
    refine ⟨by simp, fun h => Or.inr ?_⟩
    exact all_false_any_not _ _ (by simpa using h)

theorem envOk_enableWhitelist (domains : List String) (admin : Bool)
    (failMsg : Browser → Option String) (st : RegState) :
    envelopeOk (enableWhitelist domains admin failMsg st).1 := by
  cases admin
  · simp [enableWhitelist, verifyPrivilegesForOperation, envelopeOk]
  · by_cases hi : (domains.filter (fun d => !validateDomain d)).length > 0
    · simp [enableWhitelist, verifyPrivilegesForOperation, hi, envelopeOk]
    · simp only [enableWhitelist, verifyPrivilegesForOperation, if_true, Bool.not_true,
        Bool.false_eq_true, if_false, hi, envelopeOk]
      refine ⟨by simp, fun h => Or.inr ?_⟩
      exact all_false_any_not _ _ (by simpa using h)

theorem envOk_getDomainList (readErr : Bool) (st : RegState) :
    envelopeOk (getDomainList readErr st).1 := by
  cases readErr <;> simp [getDomainList, envelopeOk]

theorem envOk_getWriteStatus (readErr : Bool) (st : RegState) :
    envelopeOk (getWriteAccessStatus readErr st).1 := by
  simp [getWriteAccessStatus, envelopeOk]

theorem envOk_addDomain (d : String) (admin readErr : Bool)
    (failMsg : Browser → Option String) (st : RegState) :
    envelopeOk (addDomain d admin readErr failMsg st).1 := by
  by_cases hv : validateDomain d
  · cases admin
    · simp [addDomain, hv, verifyPrivilegesForOperation, envelopeOk]
    · by_cases hmem : d ∈ (getDomainList readErr st).1.domains.getD []
      · simp [addDomain, hv, verifyPrivilegesForOperation, getDomainList_success, hmem,
          envelopeOk]
      · have := envOk_enableWhitelist ((getDomainList readErr st).1.domains.getD [] ++ [d])
          true failMsg st
        simpa [addDomain, hv, verifyPrivilegesForOperation, getDomainList_success, hmem]
          using this
  · simp [addDomain, hv, envelopeOk]

theorem envOk_removeDomain (d : String) (admin readErr : Bool)
    (failMsg : Browser → Option String) (st : RegState) :
    envelopeOk (removeDomain d admin readErr failMsg st).1 := by
  cases admin
  · simp [removeDomain, verifyPrivilegesForOperation, envelopeOk]
  · by_cases hmem : d ∈ (getDomainList readErr st).1.domains.getD []
    · simp only [removeDomain, verifyPrivilegesForOperation, getDomainList_success, hmem,
        Bool.not_true, Bool.false_eq_true, if_false, if_true, not_true_eq_false]
      split
      · exact envOk_disableWhitelist true failMsg st
      · exact envOk_enableWhitelist _ true failMsg st
    · simp [removeDomain, verifyPrivilegesForOperation, getDomainList_success, hmem,
        envelopeOk]

theorem envOk_reset (admin : Bool) (execFail : Option String)
    (failU failD : Browser → Option String) (st : RegState) :
    resetEnvelopeOk (resetAllPolicies admin execFail failU failD st).1 := by
  cases admin
  · simp [resetAllPolicies, verifyPrivilegesForOperation, resetEnvelopeOk]
  · simp only [resetAllPolicies, verifyPrivilegesForOperation, if_true, Bool.not_true,
      Bool.false_eq_true, if_false, resetEnvelopeOk]
    split <;> simp

theorem envOk_status (readErrDrive readErrList : Bool) (st : RegState) :
    statusEnvelopeOk (getCurrentPolicyStatus readErrDrive readErrList st).1 := by
  simp [getCurrentPolicyStatus, statusEnvelopeOk]

theorem getDomainList_calls (readErr : Bool) (st : RegState) :
    (getDomainList readErr st).2 = [BackendCall.allowlistRead] := by
  cases readErr <;> rfl

theorem splitOnChar_ne_nil (c : Char) (l : List Char) : splitOnChar c l ≠ [] := by
  induction l with
  | nil => simp [splitOnChar]
  | cons x xs ih =>
    cases hsp : splitOnChar c xs with
    | nil => exact absurd hsp ih
    | cons g gs =>
      by_cases hx : x = c <;> simp [splitOnChar, hsp, hx]

theorem splitOnChar_single (c : Char) (l : List Char) (h : ∀ x ∈ l, x ≠ c) :
    splitOnChar c l = [l] := by
  induction l with
  | nil => rfl
  | cons x xs ih =>
    have hx : x ≠ c := h x (by simp)
    have hxs := ih (fun y hy => h y (by simp [hy]))
    simp [splitOnChar, hxs, hx]

theorem mem_splitOnChar (c : Char) (l : List Char) (x : Char) (hx : x ∈ l) (hxc : x ≠ c) :
    ∃ p ∈ splitOnChar c l, x ∈ p := by
  induction l with
  | nil => simp at hx
  | cons y ys ih =>
    obtain ⟨g, gs, hgs⟩ : ∃ g gs, splitOnChar c ys = g :: gs := by
      cases hsp : splitOnChar c ys with
      | nil => exact absurd hsp (splitOnChar_ne_nil c ys)
      | cons g gs => exact ⟨g, gs, rfl⟩
    by_cases hy : y = c
    · have hmem : x ∈ ys := by
        rcases List.mem_cons.mp hx with h | h
        · exact absurd (h.trans hy) hxc
        · exact h
      obtain ⟨p, hp, hxp⟩ := ih hmem
      rw [hgs] at hp
      exact ⟨p, by simp [splitOnChar, hgs, hy, List.mem_cons.mp hp], hxp⟩
    · rcases List.mem_cons.mp hx with h | h
      · exact ⟨y :: g, by simp [splitOnChar, hgs, hy], by simp [h]⟩
      · obtain ⟨p, hp, hxp⟩ := ih h
        rw [hgs] at hp
        rcases List.mem_cons.mp hp with hpg | hpgs
        · exact ⟨y :: g, by simp [splitOnChar, hgs, hy], by simp [hpg ▸ hxp]⟩
        · exact ⟨p, by simp [splitOnChar, hgs, hy, hpgs], hxp⟩

theorem labelCore_chars (l : List Char) (h : labelCore l = true) :
    ∀ x ∈ l, isLabelChar x = true := by
  induction l with
  | nil => exact absurd h (by simp [labelCore])
  | cons y ys ih =>
    intro x hx
    cases ys with
    | nil =>
      have ha : isAlnum y = true := h
      rcases List.mem_singleton.mp hx with rfl
      simp [isLabelChar, ha]
    | cons z zs =>
      have h2 : (isLabelChar y && labelCore (z :: zs)) = true := h
      rw [Bool.and_eq_true] at h2
      rcases List.mem_cons.mp hx with rfl | hmem
      · exact h2.1
      · exact ih h2.2 x hmem

theorem isValidLabel_chars (l : List Char) (h : isValidLabel l = true) :
    ∀ x ∈ l, isLabelChar x = true := by
  cases l with
  | nil => exact absurd h (by simp [isValidLabel])
  | cons y ys =>
    intro x hx
    cases ys with
    | nil =>
      have ha : isAlnum y = true := h
      rcases List.mem_singleton.mp hx with rfl
      simp [isLabelChar, ha]
    | cons z zs =>
      have h2 : ((isAlnum y && labelCore (z :: zs))
          && decide ((y :: z :: zs).length ≤ 63)) = true := h
      rw [Bool.and_eq_true, Bool.and_eq_true] at h2
      rcases List.mem_cons.mp hx with rfl | hmem
      · simp [isLabelChar, h2.1.1]
      · exact labelCore_chars (z :: zs) h2.1.2 x hmem

theorem stripScheme_keeps_newline (l : List Char) (h : '\n' ∈ l) :
    '\n' ∈ stripScheme l := by
  unfold stripScheme
  split_ifs with h8 h7
  · have hd := (List.take_append_drop 8 l) ▸ h
    rcases List.mem_append.mp hd with hx | hx
    · rw [h8] at hx
      exact absurd hx (by decide)
    · exact hx
  · have hd := (List.take_append_drop 7 l) ▸ h
    rcases List.mem_append.mp hd with hx | hx
    · rw [h7] at hx
      exact absurd hx (by decide)
    · exact hx
  · exact h

theorem stripPath_keeps_newline (l : List Char) (h : '\n' ∈ l) :
    '\n' ∈ stripPath l := by
  unfold stripPath
  set twr := (l.reverse.takeWhile (fun c => c ≠ '\n')).reverse with htwr
  set dwr := (l.reverse.dropWhile (fun c => c ≠ '\n')).reverse with hdwr
  split_ifs with hsl
  case neg => exact h
  case pos =>
    have hdecomp : dwr ++ twr = l := by
      rw [hdwr, htwr, ← List.reverse_append, List.takeWhile_append_dropWhile,
        List.reverse_reverse]
    have htailnl : '\n' ∉ twr := by
      intro hmem
      rw [htwr] at hmem
      have := List.mem_takeWhile_imp (List.mem_reverse.mp hmem)
      simp at this
    have hhead : '\n' ∈ dwr := by
      have hx : '\n' ∈ dwr ++ twr := by rw [hdecomp]; exact h
      rcases List.mem_append.mp hx with hx | hx
      · exact hx
      · exact absurd hx htailnl
    have hlen : l.length - twr.length = dwr.length := by
      have hc := congrArg List.length hdecomp
      simp only [List.length_append] at hc
      omega
    rw [hlen]
    have htake : l.take dwr.length = dwr := by
      conv_lhs => rw [← hdecomp]
      exact List.take_left _ _
    rw [htake]
    exact List.mem_append.mpr (Or.inl hhead)

theorem validateDomain_ne_empty (s : String) (h : validateDomain s = true) : s ≠ "" := by
  intro he
  rw [he] at h
  simp [validateDomain] at h

theorem validateDomain_no_newline (s : String) (h : validateDomain s = true) :
    ∀ x ∈ s.data, x ≠ '\n' := by
  intro x hx hnl
  subst hnl
  have hclean : '\n' ∈ cleanDomain s :=
    stripPath_keeps_newline _ (stripScheme_keeps_newline _ hx)
  have hmatch : domainRegexMatches (cleanDomain s) = true := by
    unfold validateDomain at h
    split_ifs at h
    exact h
  obtain ⟨p, hp, hnp⟩ := mem_splitOnChar '.' (cleanDomain s) '\n' hclean (by decide)
  have hlab : isValidLabel p = true := by
    rw [domainRegexMatches, List.all_eq_true] at hmatch
    exact hmatch p hp
  have := isValidLabel_chars p hlab '\n' hnp
  exact absurd this (by decide)

theorem parseStdoutLines_cons (v : String) (vs : List String) :
    parseStdoutLines (v :: vs)
      = ((((splitOnChar '\n' v.data).map String.mk).map jsTrim).filter (fun s => s ≠ ""))
        ++ parseStdoutLines vs := by
  simp [parseStdoutLines, List.filter_append]

theorem parseStdoutLines_normalized (vals : List String)
    (h : ∀ v ∈ vals, v ≠ "" ∧ (∀ x ∈ v.data, x ≠ '\n') ∧ jsTrim v = v) :
    parseStdoutLines vals = vals := by
  induction vals with
  | nil => rfl
  | cons v vs ih =>
    obtain ⟨hne, hnl, htr⟩ := h v (by simp)
    have hsplit : splitOnChar '\n' v.data = [v.data] := splitOnChar_single _ _ hnl
    have hrest := ih (fun w hw => h w (by simp [hw]))
    have hmk : String.mk v.data = v := rfl
    rw [parseStdoutLines_cons, hsplit, hrest]
    simp [hmk, htr, hne]

theorem getDomainList_normalized (st : RegState) (h : NormalizedAllowlist st) :
    (getDomainList false st).1.domains
      = some ((st.getB Browser.chrome).allowlist.getD []) := by
  have hp := parseStdoutLines_normalized ((st.getB Browser.chrome).allowlist.getD [])
    (fun v hv => ⟨validateDomain_ne_empty v (h v hv).1,
      validateDomain_no_newline v (h v hv).1, (h v hv).2⟩)
  simp [getDomainList, hp]

theorem applyWrites_extend (xs : List String) (d : String) :
    applyWrites (xs ++ [d]) xs = xs ++ [d] := by
  unfold applyWrites
  rw [List.drop_eq_nil_of_le (by simp)]
  simp

theorem joinWithChar_splitOnChar (c : Char) (l : List Char) :
    joinWithChar c (splitOnChar c l) = l := by
  induction l with
  | nil => rfl
  | cons x xs ih =>
    obtain ⟨g, gs, hgs⟩ : ∃ g gs, splitOnChar c xs = g :: gs := by
      cases hsp : splitOnChar c xs with
      | nil => exact absurd hsp (splitOnChar_ne_nil c xs)
      | cons g gs => exact ⟨g, gs, rfl⟩
    rw [hgs] at ih
    by_cases hx : x = c
    · subst hx
      simp only [splitOnChar, hgs, if_pos rfl, joinWithChar]
      cases gs <;> simpa [joinWithChar] using ih
    · simp only [splitOnChar, hgs, if_neg hx]
      cases gs with
      | nil => simpa [joinWithChar] using congrArg (x :: ·) ih
      | cons g2 t =>
        simp only [joinWithChar] at ih ⊢
        rw [List.cons_append, ih]

theorem splitOnChar_append_cons (c : Char) (p l : List Char)
    (hc : ∀ x ∈ p, x ≠ c) : splitOnChar c (p ++ c :: l) = p :: splitOnChar c l := by
  induction p with
  | nil =>
    obtain ⟨g, gs, hgs⟩ : ∃ g gs, splitOnChar c l = g :: gs := by
      cases hsp : splitOnChar c l with
      | nil => exact absurd hsp (splitOnChar_ne_nil c l)
      | cons g gs => exact ⟨g, gs, rfl⟩
    simp [splitOnChar, hgs]
  | cons y p' ih =>
    have hy : y ≠ c := hc y (by simp)
    have hih := ih (fun x hx => hc x (by simp [hx]))
    rw [List.cons_append]
    simp only [splitOnChar, hih, if_neg hy]

theorem splitOnChar_joinWithChar (c : Char) (parts : List (List Char))
    (hne : parts ≠ []) (hch : ∀ p ∈ parts, ∀ x ∈ p, x ≠ c) :
    splitOnChar c (joinWithChar c parts) = parts := by
  induction parts with
  | nil => exact absurd rfl hne
  | cons p ps ih =>
    cases ps with
    | nil =>
      simp only [joinWithChar]
      exact splitOnChar_single c p (hch p (by simp))
    | cons q t =>
      have : joinWithChar c (p :: q :: t) = p ++ c :: joinWithChar c (q :: t) := rfl
      rw [this, splitOnChar_append_cons c p _ (hch p (by simp)),
        ih (by simp) (fun r hr => hch r (by simp [hr]))]

theorem labelCore_last (l : List Char) (h : labelCore l = true) :
    ∀ x, l.getLast? = some x → isAlnum x = true := by
  induction l with
  | nil => exact absurd h (by simp [labelCore])
  | cons y ys ih =>
    intro x hx
    cases ys with
    | nil =>
      have ha : isAlnum y = true := h
      simp at hx
      exact hx ▸ ha
    | cons z zs =>
      have h2 : (isLabelChar y && labelCore (z :: zs)) = true := h
      rw [Bool.and_eq_true] at h2
      rw [List.getLast?_cons_cons] at hx
      exact ih h2.2 x hx

theorem labelCore_of (l : List Char) (hch : ∀ x ∈ l, isLabelChar x = true)
    (hlast : ∀ x, l.getLast? = some x → isAlnum x = true) (hne : l ≠ []) :
    labelCore l = true := by
  induction l with
  | nil => exact absurd rfl hne
  | cons y ys ih =>
    cases ys with
    | nil =>
      show isAlnum y = true
      exact hlast y (by simp)
    | cons z zs =>
      show (isLabelChar y && labelCore (z :: zs)) = true
      rw [Bool.and_eq_true]
      refine ⟨hch y (by simp), ih (fun x hx => hch x (by simp [hx])) ?_ (by simp)⟩
      intro x hx
      exact hlast x (by rw [List.getLast?_cons_cons]; exact hx)

theorem isValidLabel_iff (p : List Char) : isValidLabel p = true ↔ SpecLabel p := by
  constructor
  · intro h
    refine ⟨?_, ?_, isValidLabel_chars p h, ?_, ?_⟩
    · intro he
      rw [he] at h
      simp [isValidLabel] at h
    · cases p with
      | nil => simp
      | cons y ys =>
        cases ys with
        | nil => simp
        | cons z zs =>
          have h2 : ((isAlnum y && labelCore (z :: zs))
              && decide ((y :: z :: zs).length ≤ 63)) = true := h
          rw [Bool.and_eq_true, Bool.and_eq_true] at h2
          exact of_decide_eq_true h2.2
    · intro x hx
      cases p with
      | nil => simp at hx
      | cons y ys =>
        simp at hx
        subst hx
        cases ys with
        | nil => exact h
        | cons z zs =>
          have h2 : ((isAlnum y && labelCore (z :: zs))
              && decide ((y :: z :: zs).length ≤ 63)) = true := h
          rw [Bool.and_eq_true, Bool.and_eq_true] at h2
          exact h2.1.1
    · intro x hx
      cases p with
      | nil => simp at hx
      | cons y ys =>
        cases ys with
        | nil =>
          simp at hx
          exact hx ▸ (h : isAlnum y = true)
        | cons z zs =>
          have h2 : ((isAlnum y && labelCore (z :: zs))
              && decide ((y :: z :: zs).length ≤ 63)) = true := h
          rw [Bool.and_eq_true, Bool.and_eq_true] at h2
          rw [List.getLast?_cons_cons] at hx
          exact labelCore_last (z :: zs) h2.1.2 x hx
  · rintro ⟨hne, hlen, hch, hhead, hlast⟩
    cases p with
    | nil => exact absurd rfl hne
    | cons y ys =>
      cases ys with
      | nil =>
        show isAlnum y = true
        exact hhead y (by simp)
      | cons z zs =>
        show ((isAlnum y && labelCore (z :: zs))
            && decide ((y :: z :: zs).length ≤ 63)) = true
        rw [Bool.and_eq_true, Bool.and_eq_true]
        refine ⟨⟨hhead y (by simp), ?_⟩, decide_eq_true hlen⟩
        refine labelCore_of (z :: zs) (fun x hx => hch x (by simp [hx])) ?_ (by simp)
        intro x hx
        exact hlast x (by rw [List.getLast?_cons_cons]; exact hx)

/-! ### Claims -/

/-- C1: after a passing privilege check, `resetAllPolicies` runs all
three of `allowWriteAccess`, `unblockAllWebsites`, `disableWhitelist`
in sequence regardless of individual failures (the final state carries
all three attempted mutations and all three sub-results are attached),
its overall success is the conjunction of the three sub-successes, and
on any sub-failure it returns `success = false` with code
PARTIAL_RESET_FAILURE and `recoverable = true`. -/
theorem resetAllPolicies_best_effort (driveFail : Option String)
    (failUnblock failDisable : Browser → Option String) (st : RegState)
    (d b w : OpOut)
    (hd : d = allowWriteAccess true driveFail st)
    (hb : b = unblockAllWebsites true failUnblock d.2.1)
    (hw : w = disableWhitelist true failDisable b.2.1) :
    (resetAllPolicies true driveFail failUnblock failDisable st).1.results
        = some (d.1, b.1, w.1) ∧
    (resetAllPolicies true driveFail failUnblock failDisable st).2.1 = w.2.1 ∧
    (resetAllPolicies true driveFail failUnblock failDisable st).1.success
        = (d.1.success && b.1.success && w.1.success) ∧
    ((d.1.success && b.1.success && w.1.success) = false →
      (resetAllPolicies true driveFail failUnblock failDisable st).1.error
        = some { code := "PARTIAL_RESET_FAILURE", message := "Some policies could not be reset",
                 details := "One or more policy reset operations failed. Check individual results for details.",
                 recoverable := true }) := by
  subst hd hb hw
  simp only [resetAllPolicies, verifyPrivilegesForOperation, if_true, Bool.not_true,
    Bool.false_eq_true, if_false]
  by_cases hall : ((allowWriteAccess true driveFail st).1.success
      && (unblockAllWebsites true failUnblock (allowWriteAccess true driveFail st).2.1).1.success
      && (disableWhitelist true failDisable
        (unblockAllWebsites true failUnblock
          (allowWriteAccess true driveFail st).2.1).2.1).1.success) = true
  · simp [hall, Bool.and_assoc]
  · simp only [Bool.not_eq_true] at hall
    simp [hall, Bool.and_assoc]

/-- Witness for C1 at a concrete failing drive step: the sub-failure
surfaces as PARTIAL_RESET_FAILURE. -/
theorem resetAllPolicies_best_effort_witness :
    (resetAllPolicies true (some "privilege lost") (fun _ => none) (fun _ => none)
        initState).1.error.map (fun e => e.code) = some "PARTIAL_RESET_FAILURE" := by
  have h := resetAllPolicies_best_effort (some "privilege lost") (fun _ => none)
    (fun _ => none) initState _ _ _ rfl rfl rfl
  have he := h.2.2.2 (by decide)
  rw [he]
  rfl

/-- C2 counterexample: with the privilege check failing, the mutating
operation `addDomain` on an invalid domain does not return
INSUFFICIENT_PRIVILEGES — its format validation runs before the
privilege check and yields INVALID_DOMAIN_FORMAT instead. -/
theorem addDomain_invalid_unprivileged_code :
    (addDomain "bad domain!" false false (fun _ => none) initState).1.error.map
        (fun e => e.code) = some "INVALID_DOMAIN_FORMAT" ∧
    (some "INVALID_DOMAIN_FORMAT" : Option String) ≠ some "INSUFFICIENT_PRIVILEGES" := by
  decide

/-- C2 (amended): with the privilege check failing, every mutating
operation returns a failure without a single backend call and with the
registry untouched; all return INSUFFICIENT_PRIVILEGES except
`addDomain` on an invalid domain, whose pre-privilege validation
returns INVALID_DOMAIN_FORMAT. The read-only operations
`getWriteAccessStatus`, `getDomainList` and `getCurrentPolicyStatus`
take no privilege input at all and still succeed. -/
theorem privilege_gate_blocks_mutators (execFail : Option String)
    (failMsg : Browser → Option String) (readErr : Bool) (domains : List String)
    (d : String) (st : RegState) :
    privGated (blockWriteAccess false execFail st) st ∧
    privGated (allowWriteAccess false execFail st) st ∧
    privGated (blockAllWebsites false failMsg st) st ∧
    privGated (unblockAllWebsites false failMsg st) st ∧
    privGated (enableWhitelist domains false failMsg st) st ∧
    privGated (disableWhitelist false failMsg st) st ∧
    ((addDomain d false readErr failMsg st).1.success = false ∧
     (addDomain d false readErr failMsg st).1.error.map (fun e => e.code)
        = some (if validateDomain d then "INSUFFICIENT_PRIVILEGES"
                else "INVALID_DOMAIN_FORMAT") ∧
     (addDomain d false readErr failMsg st).2.1 = st ∧
     (addDomain d false readErr failMsg st).2.2 = []) ∧
    privGated (removeDomain d false readErr failMsg st) st ∧
    ((resetAllPolicies false execFail failMsg failMsg st).1.success = false ∧
     (resetAllPolicies false execFail failMsg failMsg st).1.error.map (fun e => e.code)
        = some "INSUFFICIENT_PRIVILEGES" ∧
     (resetAllPolicies false execFail failMsg failMsg st).2.1 = st ∧
     (resetAllPolicies false execFail failMsg failMsg st).2.2 = []) ∧
    (getWriteAccessStatus readErr st).1.success = true ∧
    (getDomainList readErr st).1.success = true ∧
    (getCurrentPolicyStatus readErr readErr st).1.success = true := by
  refine ⟨?_, ?_, ?_, ?_, ?_, ?_, ?_, ?_, ?_, ?_, ?_, ?_⟩
  · simp [privGated, blockWriteAccess, verifyPrivilegesForOperation]
  · simp [privGated, allowWriteAccess, verifyPrivilegesForOperation]
  · simp [privGated, blockAllWebsites, verifyPrivilegesForOperation]
  · simp [privGated, unblockAllWebsites, verifyPrivilegesForOperation]
  · simp [privGated, enableWhitelist, verifyPrivilegesForOperation]
  · simp [privGated, disableWhitelist, verifyPrivilegesForOperation]
  · cases hv : validateDomain d <;>
      simp [addDomain, hv, verifyPrivilegesForOperation]
  · simp [privGated, removeDomain, verifyPrivilegesForOperation]
  · simp [resetAllPolicies, verifyPrivilegesForOperation]
  · simp [getWriteAccessStatus]
  · exact getDomainList_success readErr st
  · simp [getCurrentPolicyStatus]

/-- C3: `blockAllWebsites` attempts every browser target even when an
earlier target fails: the returned per-target list has exactly one
entry per target in iteration order, its overall success is the
conjunction of the per-target successes, and the trace of attempted
backend calls contains a write attempt for every target. -/
theorem blockAllWebsites_fanout_independent (failMsg : Browser → Option String)
    (st : RegState) :
    (blockAllWebsites true failMsg st).1.results
        = some (browserList.map (targetEntry failMsg)) ∧
    (blockAllWebsites true failMsg st).1.success
        = (browserList.map (targetEntry failMsg)).all (fun t => t.success) ∧
    ∀ b ∈ browserList, BackendCall.browserWrite b ∈ (blockAllWebsites true failMsg st).2.2 := by
  cases hc : failMsg Browser.chrome <;> cases he : failMsg Browser.edge <;>
    cases hf : failMsg Browser.firefox <;>
    simp [blockAllWebsites, verifyPrivilegesForOperation, runTargets, browserList,
      targetEntry, hc, he, hf, List.forall_mem_cons]

/-- C4: with administrator privileges, `enableWhitelist` on a list
containing any invalid domain makes zero backend calls, leaves the
registry untouched, and fails with INVALID_DOMAIN_FORMAT carrying
exactly the invalid entries of the input in order. -/
theorem enableWhitelist_invalid_rejects_all (domains : List String)
    (failMsg : Browser → Option String) (st : RegState)
    (h : ∃ d ∈ domains, validateDomain d = false) :
    enableWhitelist domains true failMsg st
      = ({ success := false,
           error := some { code := "INVALID_DOMAIN_FORMAT", message := "Invalid domain format",
                           details := "The following domains have invalid format: "
                             ++ String.intercalate ", "
                               (domains.filter (fun d => !validateDomain d)),
                           recoverable := true,
                           invalidDomains := some (domains.filter (fun d => !validateDomain d)) } },
         st, []) := by
  obtain ⟨d, hd, hv⟩ := h
  have hmem : d ∈ domains.filter (fun d => !validateDomain d) :=
    List.mem_filter.mpr ⟨hd, by simp [hv]⟩
  have hlen : (domains.filter (fun d => !validateDomain d)).length > 0 :=
    List.length_pos.mpr (List.ne_nil_of_mem hmem)
  simp [enableWhitelist, verifyPrivilegesForOperation, hlen]

/-- Witness for C4 at the spec's example input: only `"bad domain!"`
is reported and no backend call is made. -/
theorem enableWhitelist_invalid_rejects_all_witness :
    enableWhitelist ["bad domain!", "good.com"] true (fun _ => none) initState
      = ({ success := false,
           error := some { code := "INVALID_DOMAIN_FORMAT", message := "Invalid domain format",
                           details := "The following domains have invalid format: bad domain!",
                           recoverable := true,
                           invalidDomains := some ["bad domain!"] } },
         initState, []) := by
  have h := enableWhitelist_invalid_rejects_all ["bad domain!", "good.com"] (fun _ => none)
    initState ⟨"bad domain!", by decide, by decide⟩
  rw [h]
  decide

/-- C5 counterexample: a partial per-target failure makes
`blockAllWebsites` return `success = false` with no error object
attached, violating the claimed envelope invariant. -/
theorem blockAllWebsites_partial_failure_no_error :
    (blockAllWebsites true (fun b => if b = Browser.edge then some "boom" else none)
        initState).1.success = false ∧
    (blockAllWebsites true (fun b => if b = Browser.edge then some "boom" else none)
        initState).1.error = none := by
  decide

/-- C5 (amended): every modeled controller and orchestrator operation
returns an envelope in which success never carries an error, and
failure carries a non-null error object except in the partial-failure
case of the four browser fan-out operations, where the error is absent
and the attached per-target results record at least one failed target
(`resetAllPolicies` and the drive operations always attach an error on
failure). -/
theorem result_envelope_invariant (admin readErrD readErrL : Bool)
    (execFail : Option String) (failMsg failU failD : Browser → Option String)
    (domains : List String) (d : String) (st : RegState) :
    envelopeOk (blockWriteAccess admin execFail st).1 ∧
    envelopeOk (allowWriteAccess admin execFail st).1 ∧
    envelopeOk (getWriteAccessStatus readErrD st).1 ∧
    envelopeOk (blockAllWebsites admin failMsg st).1 ∧
    envelopeOk (unblockAllWebsites admin failMsg st).1 ∧
    envelopeOk (enableWhitelist domains admin failMsg st).1 ∧
    envelopeOk (disableWhitelist admin failMsg st).1 ∧
    envelopeOk (addDomain d admin readErrL failMsg st).1 ∧
    envelopeOk (removeDomain d admin readErrL failMsg st).1 ∧
    envelopeOk (getDomainList readErrL st).1 ∧
    resetEnvelopeOk (resetAllPolicies admin execFail failU failD st).1 ∧
    statusEnvelopeOk (getCurrentPolicyStatus readErrD readErrL st).1 :=
  ⟨envOk_blockWrite admin execFail st, envOk_allowWrite admin execFail st,
   envOk_getWriteStatus readErrD st, envOk_blockAll admin failMsg st,
   envOk_unblockAll admin failMsg st, envOk_enableWhitelist domains admin failMsg st,
   envOk_disableWhitelist admin failMsg st, envOk_addDomain d admin readErrL failMsg st,
   envOk_removeDomain d admin readErrL failMsg st, envOk_getDomainList readErrL st,
   envOk_reset admin execFail failU failD st, envOk_status readErrD readErrL st⟩

/-- Witness for C5 (amended) at the counterexample's own input: the
partial-failure aggregate satisfies the amended invariant through its
per-target results. -/
theorem result_envelope_invariant_witness :
    envelopeOk (blockAllWebsites true
      (fun b => if b = Browser.edge then some "boom" else none) initState).1 :=
  (result_envelope_invariant true false false none
    (fun b => if b = Browser.edge then some "boom" else none) (fun _ => none)
    (fun _ => none) [] "example.com" initState).2.2.2.1

/-- C8: whenever the write-protection flag cannot be read — the read
errored (`readErr`) or the registry value is absent — the PowerShell
fallback value `-1` makes `getWriteAccessStatus` return a successful
result with `isBlocked = false` and status `"allowed"`. -/
theorem getWriteAccessStatus_defaults_allowed (readErr : Bool) (st : RegState)
    (h : readErr = true ∨ st.writeProtect = none) :
    getWriteAccessStatus readErr st
      = ({ success := true, status := some "allowed", isBlocked := some false,
           message := some "External drive write access is currently allowed" },
         [BackendCall.driveRead]) := by
  rcases h with h | h
  · subst h; simp [getWriteAccessStatus]
  · cases readErr <;> simp [getWriteAccessStatus, h]

/-- Witness for C8 on a never-configured backend. -/
theorem getWriteAccessStatus_defaults_allowed_witness :
    getWriteAccessStatus false initState
      = ({ success := true, status := some "allowed", isBlocked := some false,
           message := some "External drive write access is currently allowed" },
         [BackendCall.driveRead]) :=
  getWriteAccessStatus_defaults_allowed false initState (Or.inr rfl)

/-- C10: `enableWhitelist` checks privileges before validating its
domains while `addDomain` validates before checking privileges, so an
invalid domain submitted without administrator privileges yields
INSUFFICIENT_PRIVILEGES from the former and INVALID_DOMAIN_FORMAT from
the latter. -/
theorem validation_order_enable_vs_add (d : String) (readErr : Bool)
    (failMsg : Browser → Option String) (st : RegState)
    (h : validateDomain d = false) :
    (enableWhitelist [d] false failMsg st).1.error.map (fun e => e.code)
        = some "INSUFFICIENT_PRIVILEGES" ∧
    (addDomain d false readErr failMsg st).1.error.map (fun e => e.code)
        = some "INVALID_DOMAIN_FORMAT" := by
  constructor
  · simp [enableWhitelist, verifyPrivilegesForOperation]
  · simp [addDomain, h]

/-- Witness for C10 at the spec's invalid-domain example. -/
theorem validation_order_enable_vs_add_witness :
    (enableWhitelist ["bad domain!"] false (fun _ => none) initState).1.error.map
        (fun e => e.code) = some "INSUFFICIENT_PRIVILEGES" ∧
    (addDomain "bad domain!" false false (fun _ => none) initState).1.error.map
        (fun e => e.code) = some "INVALID_DOMAIN_FORMAT" :=
  validation_order_enable_vs_add "bad domain!" false (fun _ => none) initState (by decide)


/-- C7: with administrator privileges and a working backend, removing
the only domain of a whitelist whose domain set is exactly that one
domain calls `disableWhitelist` (never `enableWhitelist []`): the
result carries status `whitelist_disabled` and every browser target
ends with both its blocklist and its allowlist containers deleted. -/
theorem removeDomain_last_disables_whitelist (d : String) (st : RegState)
    (hne : (getDomainList false st).1.domains.getD [] ≠ [])
    (hall : ∀ x ∈ (getDomainList false st).1.domains.getD [], x = d) :
    removeDomain d true false (fun _ => none) st
      = ((disableWhitelist true (fun _ => none) st).1,
         (disableWhitelist true (fun _ => none) st).2.1,
         BackendCall.allowlistRead :: (disableWhitelist true (fun _ => none) st).2.2) ∧
    (removeDomain d true false (fun _ => none) st).1.status = some "whitelist_disabled" ∧
    (removeDomain d true false (fun _ => none) st).1.success = true ∧
    ∀ b, ((removeDomain d true false (fun _ => none) st).2.1.getB b).blocklist = false ∧
         ((removeDomain d true false (fun _ => none) st).2.1.getB b).allowlist = none := by
  have hmem : d ∈ (getDomainList false st).1.domains.getD [] := by
    obtain ⟨x, hx⟩ := List.exists_mem_of_ne_nil _ hne
    exact (hall x hx) ▸ hx
  have heq : removeDomain d true false (fun _ => none) st
      = ((disableWhitelist true (fun _ => none) st).1,
         (disableWhitelist true (fun _ => none) st).2.1,
         BackendCall.allowlistRead :: (disableWhitelist true (fun _ => none) st).2.2) := by
    have hcalls : (getDomainList false st).2 = [BackendCall.allowlistRead] := rfl
    simp only [removeDomain, verifyPrivilegesForOperation, getDomainList_success, hmem,
      Bool.not_true, Bool.false_eq_true, if_false, if_true, not_true_eq_false,
      List.length_eq_zero, List.filter_eq_nil_iff]
    rw [if_pos ?_]
    · simp [hcalls]
    · intro a ha
      simpa using hall a ha
  refine ⟨heq, ?_, ?_, ?_⟩
  · rw [heq]
    simp [disableWhitelist, verifyPrivilegesForOperation, runTargets, browserList]
  · rw [heq]
    simp [disableWhitelist, verifyPrivilegesForOperation, runTargets, browserList]
  · intro b
    rw [heq]
    cases b <;>
      simp [disableWhitelist, verifyPrivilegesForOperation, runTargets, browserList,
        RegState.setB, RegState.getB]

/-- Witness for C7 on a concrete one-domain whitelist. -/
theorem removeDomain_last_disables_whitelist_witness :
    (removeDomain "example.com" true false (fun _ => none) oneDomainState).1.status
        = some "whitelist_disabled" ∧
    ∀ b, (((removeDomain "example.com" true false (fun _ => none) oneDomainState).2.1).getB
        b).blocklist = false ∧
      (((removeDomain "example.com" true false (fun _ => none) oneDomainState).2.1).getB
        b).allowlist = none := by
  have h := removeDomain_last_disables_whitelist "example.com" oneDomainState (by decide)
    (by decide)
  exact ⟨h.2.1, h.2.2.2⟩

/-- C6: `addDomain` is idempotent. For a valid, trim-normal domain over
a normalized whitelist state: (a) if the domain is already in the
current list, `addDomain` returns success with status `already_exists`,
leaves the registry untouched and performs only the read (no backend
write); (b) a second `addDomain` of the same domain after a first one
returns `already_exists` and leaves the state of the first call
unchanged, so calling it twice yields the same final whitelist as
calling it once. -/
theorem addDomain_idempotent (d : String) (st : RegState)
    (hval : validateDomain d = true) (htrim : jsTrim d = d)
    (hnorm : NormalizedAllowlist st) :
    (∀ failMsg : Browser → Option String,
      d ∈ (getDomainList false st).1.domains.getD [] →
        addDomain d true false failMsg st
          = (alreadyExistsResult d, st, [BackendCall.allowlistRead])) ∧
    addDomain d true false (fun _ => none)
        ((addDomain d true false (fun _ => none) st).2.1)
      = (alreadyExistsResult d,
         (addDomain d true false (fun _ => none) st).2.1,
         [BackendCall.allowlistRead]) := by
  have key : ∀ st' : RegState, ∀ failMsg : Browser → Option String,
      d ∈ (getDomainList false st').1.domains.getD [] →
      addDomain d true false failMsg st'
        = (alreadyExistsResult d, st', [BackendCall.allowlistRead]) := by
    intro st' failMsg hmem
    simp [addDomain, hval, verifyPrivilegesForOperation, getDomainList_success, hmem,
      alreadyExistsResult, getDomainList_calls]
  refine ⟨fun failMsg hmem => key st failMsg hmem, ?_⟩
  by_cases hmem : d ∈ (getDomainList false st).1.domains.getD []
  · rw [key st (fun _ => none) hmem]
    exact key st (fun _ => none) hmem
  · have hdom := getDomainList_normalized st hnorm
    have hmemc : d ∉ st.chrome.allowlist.getD [] := by
      intro hc
      apply hmem
      rw [hdom]
      simpa using hc
    have hvalid_all : ∀ v ∈ (st.chrome.allowlist.getD []) ++ [d],
        validateDomain v = true := by
      intro v hv
      rcases List.mem_append.mp hv with hx | hx
      · exact (hnorm v hx).1
      · rcases List.mem_singleton.mp hx with rfl
        exact hval
    have hflt : ((st.chrome.allowlist.getD []) ++ [d]).filter
        (fun x => !validateDomain x) = [] := by
      rw [List.filter_eq_nil_iff]
      intro a ha
      simp [hvalid_all a ha]
    have hst1 : (addDomain d true false (fun _ => none) st).2.1
        = { chrome := ⟨true, some ((st.chrome.allowlist.getD []) ++ [d])⟩,
            edge := ⟨true, some (applyWrites ((st.chrome.allowlist.getD [])
              ++ [d]) (st.edge.allowlist.getD []))⟩,
            firefox := ⟨true, some (applyWrites ((st.chrome.allowlist.getD [])
              ++ [d]) (st.firefox.allowlist.getD []))⟩,
            writeProtect := st.writeProtect } := by
      simp [addDomain, hval, verifyPrivilegesForOperation, getDomainList_success, hmemc,
        hdom, enableWhitelist, hflt, runTargets, browserList, RegState.setB, RegState.getB,
        applyWrites_extend]
    have hnorm1 : NormalizedAllowlist ((addDomain d true false (fun _ => none) st).2.1) := by
      rw [hst1]
      intro v hv
      simp only [RegState.getB, Option.getD_some] at hv
      rcases List.mem_append.mp hv with hx | hx
      · exact hnorm v hx
      · rcases List.mem_singleton.mp hx with rfl
        exact ⟨hval, htrim⟩
    have hmem1 : d ∈ (getDomainList false
        ((addDomain d true false (fun _ => none) st).2.1)).1.domains.getD [] := by
      rw [getDomainList_normalized _ hnorm1, hst1]
      simp [RegState.getB]
    exact key _ (fun _ => none) hmem1

/-- Witness for C6: adding `example.com` twice from a one-domain state;
the second call is the `already_exists` no-op. -/
theorem addDomain_idempotent_witness :
    addDomain "example.com" true false (fun _ => none)
        ((addDomain "example.com" true false (fun _ => none) oneDomainState).2.1)
      = (alreadyExistsResult "example.com",
         (addDomain "example.com" true false (fun _ => none) oneDomainState).2.1,
         [BackendCall.allowlistRead]) :=
  (addDomain_idempotent "example.com" oneDomainState (by decide) (by decide)
    (by intro v hv
        simp [oneDomainState, RegState.getB] at hv
        subst hv
        exact ⟨by decide, by decide⟩)).2

/-- C9 counterexample: the code's `validateDomain` accepts `"123"`,
which the claimed grammar (final label alphabetic-only of length at
least 2) rejects: the regex in the source places no special
restriction on the final label. -/
theorem validateDomain_accepts_numeric_tld : validateDomain "123" = true ∧ specValidateDomain "123" = false := by
  decide

/-- C9 (amended): `validateDomain` accepts a string exactly when it is
nonempty and, after stripping a leading http/https scheme and a path
suffix, decomposes into dot-separated labels of 1–63
alphanumeric/hyphen characters with no leading or trailing hyphen; the
final label is not restricted to alphabetic characters and may have
length 1. -/
theorem validateDomain_grammar (s : String) :
    validateDomain s = true ↔
      (s ≠ "" ∧ ∃ parts : List (List Char), parts ≠ [] ∧ (∀ p ∈ parts, SpecLabel p) ∧
        joinWithChar '.' parts = cleanDomain s) := by
  constructor
  · intro h
    have hs := validateDomain_ne_empty s h
    have hmatch : domainRegexMatches (cleanDomain s) = true := by
      unfold validateDomain at h
      split_ifs at h
      exact h
    rw [domainRegexMatches, List.all_eq_true] at hmatch
    exact ⟨hs, splitOnChar '.' (cleanDomain s), splitOnChar_ne_nil _ _,
      fun p hp => (isValidLabel_iff p).mp (hmatch p hp),
      joinWithChar_splitOnChar _ _⟩
  · rintro ⟨hs, parts, hne, hlab, hjoin⟩
    have hch : ∀ p ∈ parts, ∀ x ∈ p, x ≠ '.' := by
      intro p hp x hx hdot
      have := (hlab p hp).2.2.1 x hx
      rw [hdot] at this
      exact absurd this (by decide)
    unfold validateDomain
    rw [if_neg hs, domainRegexMatches, ← hjoin,
      splitOnChar_joinWithChar _ _ hne hch]
    exact List.all_eq_true.mpr (fun p hp => (isValidLabel_iff p).mpr (hlab p hp))

/-- Witness for C9 (amended) at a concrete valid domain. -/
theorem validateDomain_grammar_witness :
    ("ab.cd" : String) ≠ "" ∧ ∃ parts : List (List Char), parts ≠ [] ∧
      (∀ p ∈ parts, SpecLabel p) ∧ joinWithChar '.' parts = cleanDomain "ab.cd" :=
  (validateDomain_grammar "ab.cd").mp (by decide)

end RestrictionApp
